import Mathlib

/-!
Verification of the dexios encryption engine against its specification.

The development shallowly embeds the Rust sources:
* `src/encrypt/crypto.rs` — `encrypt_bytes_memory_mode`, `encrypt_bytes_stream_mode`;
* `src/encrypt.rs` — the legacy `encrypt_file` path (PBKDF2, JSON container);
* `src/global/parameters.rs` — `encrypt_additional_params`.

Bytes are modelled as `Nat` values below 256, byte buffers as `List Nat`.
Randomness is modelled by passing the sampled entropy as a function
`Nat → Nat` (the byte stream the CSPRNG produced).  External cryptographic
primitives (AES-256-GCM, XChaCha20-Poly1305, Deoxys-II-256, Argon2id,
PBKDF2, BLAKE3) are modelled by concrete executable functions that have the
interface and algebraic shape the spec assigns them (AEAD output =
plaintext followed by a 16-byte tag that depends on algorithm, key, nonce
and plaintext; KDF output = 32 bytes depending on raw key, salt and
parameters); the claims under check never depend on the primitives'
internal values, only on which primitive is invoked, with which inputs, and
on the round-trip shape of seal/open.  Repository code that is not under
`src/` (the header codec, `argon2_hash`, `gen_salt`, `init_encryption_stream`,
the decryption pipelines) is modelled from the spec, as marked on each
definition.
-/

namespace Dexios

/-- Algorithm enum, from `dexios_core::primitives::Algorithm` as used by the
sources: AES-256-GCM, XChaCha20-Poly1305, Deoxys-II-256. -/
inductive Algorithm where
  | aes256Gcm
  | xchacha20Poly1305
  | deoxysII256
deriving DecidableEq

/-- Cipher mode enum from `crate::global::enums::CipherMode`. -/
inductive CipherMode where
  | memoryMode
  | streamMode
deriving DecidableEq

/-- Bench mode enum from `crate::global::enums::BenchMode`: whether the
pipeline writes its output to the filesystem. -/
inductive BenchMode where
  | writeToFilesystem
  | benchmarkInMemory
deriving DecidableEq

/-- Hash mode enum from `crate::global::enums::HashMode`: whether the
pipeline folds the container into a BLAKE3 hasher. -/
inductive HashMode where
  | calculateHash
  | noHash
deriving DecidableEq

/-- Tag for which key-derivation primitive a pipeline invoked:
`argon2id` for `crate::key::argon2_hash`, `pbkdf2HmacSha512` for
`ring::pbkdf2::derive(PBKDF2_HMAC_SHA512, ..)` in the legacy `encrypt_file`. -/
inductive KdfPrimitive where
  | argon2id
  | pbkdf2HmacSha512
deriving DecidableEq

/-- Modelled from the spec: `BLOCK_SIZE` of `crate::global` is missing from
`src/`; the spec fixes it as a compile-time constant and recommends 1 MiB
(scenarios S2/S3 use 1 MiB). -/
def BLOCK_SIZE : Nat := 1048576

/-- Modelled from the spec: `VERSION` of `crate::global` is missing from
`src/`; the spec's header version 1 is used. -/
def VERSION : Nat := 1

/-- Modelled from the spec: `dexios_core::primitives::ALGORITHMS` is missing
from `src/`; per the spec's stable ordinal encoding (scenario S1 gives
AES-256-GCM ordinal 1) the list is the three algorithms in ordinal order. -/
def ALGORITHMS : List Algorithm :=
  [.aes256Gcm, .xchacha20Poly1305, .deoxysII256]

/-- Per-algorithm nonce length, from the three arms of
`encrypt_bytes_memory_mode` in `src/encrypt/crypto.rs`: `[u8; 12]` for
AES-256-GCM, `[u8; 24]` for XChaCha20-Poly1305, `[u8; 15]` for Deoxys-II-256. -/
def nonceLen : Algorithm → Nat
  | .aes256Gcm => 12
  | .xchacha20Poly1305 => 24
  | .deoxysII256 => 15

/-- Modelled from the spec: stable ordinal encoding of the algorithm in the
header (AES-256-GCM = 1, per scenario S1). -/
def algOrdinal : Algorithm → Nat
  | .aes256Gcm => 1
  | .xchacha20Poly1305 => 2
  | .deoxysII256 => 3

/-- Modelled from the spec: ordinal encoding of the cipher mode in the header. -/
def modeOrdinal : CipherMode → Nat
  | .memoryMode => 1
  | .streamMode => 2

/-- Modelled from the spec: `crate::key::gen_salt` is missing from `src/`;
the spec fixes `gen_salt() → [u8;16]` backed by a CSPRNG, modelled here as
the first 16 bytes of the sampled entropy stream `e`. -/
def gen_salt (e : Nat → Nat) : List Nat :=
  (List.range 16).map fun i => e i % 256

/-- Entropy-backed nonce of `n` bytes (`StdRng::from_entropy().gen::<[u8;N]>()`
in `src/encrypt/crypto.rs`), drawn from the entropy stream after the salt. -/
def gen_nonce (e : Nat → Nat) (n : Nat) : List Nat :=
  (List.range n).map fun i => e (16 + i) % 256

/-- A key-derivation invocation: which primitive ran and the key it produced. -/
structure KdfCall where
  primitive : KdfPrimitive
  key : List Nat
deriving DecidableEq

/-- Modelled from the spec: the fixed Argon2id parameter table of
`crate::key` (missing from `src/`), keyed by header version — (memory,
iterations, parallelism); unknown versions are refused. The concrete
numbers are model placeholders: no claim depends on them. -/
def argon2Params (version : Nat) : Option (Nat × Nat × Nat) :=
  if version = 1 then some (4096, 3, 1) else none

/-- Model of the 32-byte Argon2id output: a concrete executable stand-in for
the external primitive, depending on raw key, salt and the parameter triple. -/
def argon2KeyBytes (raw salt : List Nat) (p : Nat × Nat × Nat) : List Nat :=
  (List.range 32).map fun i =>
    (raw.sum * 3 + salt.sum * 5 + p.1 + p.2.1 * 7 + p.2.2 * 11 + i) % 256

/-- Modelled from the spec: `crate::key::argon2_hash(raw_key, salt,
header_version)` is missing from `src/`; the spec fixes it as Argon2id with
version-selected parameters producing a 32-byte key, failing on an unknown
version. -/
def argon2_hash (raw_key salt : List Nat) (version : Nat) :
    Except String KdfCall :=
  match argon2Params version with
  | some p => .ok ⟨.argon2id, argon2KeyBytes raw_key salt p⟩
  | none => .error "unknown header version"

/-- Model of the 32-byte PBKDF2-HMAC-SHA512 output (`ring::pbkdf2::derive`
into `[u8; 32]` in `src/encrypt.rs`): a concrete executable stand-in for the
external primitive. -/
def pbkdf2KeyBytes (raw salt : List Nat) (iterations : Nat) : List Nat :=
  (List.range 32).map fun i =>
    (raw.sum * 7 + salt.sum * 3 + iterations + i) % 256

/-- The legacy KDF call of `src/encrypt.rs` line 42:
`ring::pbkdf2::derive(PBKDF2_HMAC_SHA512, 122880, &salt, &raw_key, &mut key)`. -/
def pbkdf2_derive (raw salt : List Nat) (iterations : Nat) : KdfCall :=
  ⟨.pbkdf2HmacSha512, pbkdf2KeyBytes raw salt iterations⟩

/-- `crate::global::structs::HeaderType` as used in `src/encrypt/crypto.rs`. -/
structure HeaderType where
  header_version : Nat
  cipher_mode : CipherMode
  algorithm : Algorithm
deriving DecidableEq

/-- `crate::global::structs::Header` as constructed in `src/encrypt/crypto.rs`:
salt, nonce and the header type. -/
structure Header where
  salt : List Nat
  nonce : List Nat
  header_type : HeaderType
deriving DecidableEq

/-- Two-byte little-endian encoding of a field value. -/
def le2 (n : Nat) : List Nat := [n % 256, n / 256 % 256]

/-- Pad (or truncate) a buffer to exactly `n` bytes with trailing zeros. -/
def padTo (n : Nat) (l : List Nat) : List Nat :=
  l.take n ++ List.replicate (n - l.length) 0

/-- Modelled from the spec: serialization of the header by the header codec
(`crate::header`, missing from `src/`), per the fixed 64-byte layout table of
spec §4.5 — version tag (2), algorithm ordinal (2), cipher-mode ordinal (2),
reserved (2), salt (16), nonce padded to the 24-byte slot, 16 reserved bytes. -/
def serializeHeader : Header → List Nat
  | ⟨salt, nonce, ⟨version, mode, alg⟩⟩ =>
    le2 version ++ le2 (algOrdinal alg) ++ le2 (modeOrdinal mode) ++ [0, 0] ++
    padTo 16 salt ++ padTo 24 nonce ++ List.replicate 16 0

/-- Model of the 32-byte keyed BLAKE3 MAC used for header signing: a concrete
executable stand-in for the external primitive, depending on the signed bytes
and the key. -/
def keyedTag32 (bytes key : List Nat) : List Nat :=
  (List.range 32).map fun i =>
    (bytes.sum * 3 + key.sum * 7 + bytes.length * 13 + i) % 256

/-- Modelled from the spec: `crate::header::sign(header, key)` is missing from
`src/`; the spec fixes it as a 32-byte keyed MAC over the serialized header
bytes. -/
def sign (h : Header) (key : List Nat) : List Nat :=
  keyedTag32 (serializeHeader h) key

/-- Modelled from the spec: `crate::header::write_to_file(output, header,
Some(signature))` is missing from `src/`; the spec fixes its effect as
writing the serialized header immediately followed by the signature. -/
def write_to_file (h : Header) (signature : List Nat) : List Nat :=
  serializeHeader h ++ signature

/-- Modelled from the spec: `crate::header::hash(hasher, header,
Some(signature))` is missing from `src/`; the spec fixes it as folding the
exact on-disk header bytes and signature into the hasher. -/
def headerHashBytes (h : Header) (signature : List Nat) : List Nat :=
  serializeHeader h ++ signature

/-- Model of the 32-byte BLAKE3 digest: a concrete executable stand-in for
the external primitive, a function of exactly the bytes fed to the hasher. -/
def blake3Sum (bytes : List Nat) : List Nat :=
  (List.range 32).map fun i =>
    (bytes.sum * 11 + bytes.length * 17 + i) % 256

/-- Model of the 16-byte AEAD authentication tag of the external ciphers:
a concrete executable function of algorithm, key, nonce and plaintext. -/
def tagBytes (alg : Algorithm) (key nonce pt : List Nat) : List Nat :=
  (List.range 16).map fun i =>
    (algOrdinal alg + key.sum * 3 + nonce.sum * 5 + pt.sum * 7 +
      pt.length * 11 + i) % 256

/-- Model of one-shot AEAD encryption (`cipher.encrypt(nonce, data)` of the
external cipher crates): ciphertext = plaintext followed by the 16-byte tag,
as the spec fixes the AEAD interface. -/
def aeadSeal (alg : Algorithm) (key nonce pt : List Nat) : List Nat :=
  pt ++ tagBytes alg key nonce pt

/-- Model of one-shot AEAD decryption: strips and checks the 16-byte tag,
failing (no partial output) when the tag does not verify. -/
def aeadOpen (alg : Algorithm) (key nonce ct : List Nat) :
    Except String (List Nat) :=
  if 16 ≤ ct.length ∧
      ct.drop (ct.length - 16) =
        tagBytes alg key nonce (ct.take (ct.length - 16)) then
    .ok (ct.take (ct.length - 16))
  else
    .error "Unable to decrypt the data"

/-- Modelled from the spec: the STREAM per-block nonce of §4.4 — base nonce,
then the u32 big-endian block counter, then the last-block flag byte. -/
def streamNonce (base : List Nat) (counter : Nat) (last : Bool) : List Nat :=
  base ++
  [counter / 16777216 % 256, counter / 65536 % 256,
    counter / 256 % 256, counter % 256] ++
  [if last then 1 else 0]

/-- State of the streaming AEAD object (`crate::streams::EncryptStreamCiphers`,
missing from `src/`): algorithm, key, STREAM base nonce and block counter. -/
structure StreamState where
  algorithm : Algorithm
  key : List Nat
  baseNonce : List Nat
  counter : Nat
deriving DecidableEq

/-- `streams.encrypt_next(block)`: seals a non-terminal block under the
counter nonce with the last-block flag clear. -/
def encrypt_next (st : StreamState) (block : List Nat) : List Nat :=
  aeadSeal st.algorithm st.key (streamNonce st.baseNonce st.counter false) block

/-- `streams.encrypt_last(block)`: seals the terminal block under the counter
nonce with the last-block flag set. -/
def encrypt_last (st : StreamState) (block : List Nat) : List Nat :=
  aeadSeal st.algorithm st.key (streamNonce st.baseNonce st.counter true) block

/-- Counter advance after a non-terminal block. -/
def nextState (st : StreamState) : StreamState :=
  { st with counter := st.counter + 1 }

/-- The read/encrypt loop of `encrypt_bytes_stream_mode`
(`src/encrypt/crypto.rs` lines 194-229), driven by the successive return
values of `input.read(&mut buffer)` (the chunk list; an exhausted list means
`read` returned 0): a chunk of exactly `BLOCK_SIZE` bytes goes to
`encrypt_next` and the loop continues; any other chunk goes to
`encrypt_last` and the loop breaks, exactly as the source's
`if read_count == BLOCK_SIZE` branch does. -/
def encryptLoop (st : StreamState) : List (List Nat) → List (List Nat)
  | [] => [encrypt_last st []]
  | c :: rest =>
    if c.length = BLOCK_SIZE then
      encrypt_next st c :: encryptLoop (nextState st) rest
    else
      [encrypt_last st c]

/-- The sequence of `read` results a regular file of contents `p` produces
for a `BLOCK_SIZE` buffer when every read is full until end of file:
full blocks, then the final short (possibly empty) read. -/
def fileChunks (p : List Nat) : List (List Nat) :=
  if h : BLOCK_SIZE ≤ p.length then
    p.take BLOCK_SIZE :: fileChunks (p.drop BLOCK_SIZE)
  else
    [p]
termination_by p.length
decreasing_by simp [List.length_drop, BLOCK_SIZE] at *; omega

/-- Modelled from the spec: `init_encryption_stream` of `crate::streams` is
missing from `src/`; per the spec it generates salt and base nonce, derives
the key, builds and signs the header, and returns the streaming cipher
state with the header and signature. -/
def init_encryption_stream (raw_key : List Nat) (ht : HeaderType)
    (e : Nat → Nat) :
    Except String (StreamState × Header × List Nat × KdfCall) := do
  let salt := gen_salt e
  let nonce := gen_nonce e (nonceLen ht.algorithm)
  let header : Header := ⟨salt, nonce, ht⟩
  let kdf ← argon2_hash raw_key salt ht.header_version
  if kdf.key.length = 32 then
    .ok (⟨ht.algorithm, kdf.key, nonce, 0⟩, header, sign header kdf.key, kdf)
  else
    .error "Unable to create cipher with argon2id hashed key."

/-- Observable result of `encrypt_bytes_memory_mode`: the bytes written to
the output sink, the bytes fed to the BLAKE3 hasher, the reported digest,
and the header, signature, ciphertext, KDF call and nonce the run used. -/
structure MemoryEncryptResult where
  outputBytes : List Nat
  hashedBytes : List Nat
  digest : Option (List Nat)
  header : Header
  signature : List Nat
  ciphertext : List Nat
  kdf : KdfCall
  nonceUsed : List Nat
deriving DecidableEq

/-- `encrypt_bytes_memory_mode` of `src/encrypt/crypto.rs` lines 26-159:
generate salt, build the header type with `VERSION` and `MemoryMode`,
generate the per-algorithm nonce, build the header, Argon2id-hash the raw
key, create the cipher (failing unless the hashed key fits the 32-byte
cipher key), sign the header, one-shot encrypt, then write header +
signature + ciphertext when `bench` says so and fold the same bytes into a
BLAKE3 hasher when `hash` says so.  The three source match arms differ only
in nonce length and cipher, captured by `nonceLen` and the algorithm tag. -/
def encrypt_bytes_memory_mode (data raw_key : List Nat) (bench : BenchMode)
    (hash : HashMode) (algorithm : Algorithm) (e : Nat → Nat) :
    Except String MemoryEncryptResult := do
  let salt := gen_salt e
  let header_type : HeaderType := ⟨VERSION, .memoryMode, algorithm⟩
  let nonce_bytes := gen_nonce e (nonceLen algorithm)
  let header : Header := ⟨salt, nonce_bytes, header_type⟩
  let kdf ← argon2_hash raw_key salt header.header_type.header_version
  if kdf.key.length = 32 then
    let signature := sign header kdf.key
    let encrypted_bytes := aeadSeal algorithm kdf.key nonce_bytes data
    let outputBytes :=
      if bench = .writeToFilesystem then
        write_to_file header signature ++ encrypted_bytes
      else []
    let hashedBytes :=
      if hash = .calculateHash then
        headerHashBytes header signature ++ encrypted_bytes
      else []
    let digest :=
      if hash = .calculateHash then some (blake3Sum hashedBytes) else none
    .ok ⟨outputBytes, hashedBytes, digest, header, signature,
      encrypted_bytes, kdf, nonce_bytes⟩
  else
    .error "Unable to create cipher with argon2id hashed key."

/-- Observable result of `encrypt_bytes_stream_mode`: output-sink bytes,
hasher bytes, digest, header, signature, ciphertext blocks in encryption
order, KDF call and the STREAM base nonce. -/
structure StreamEncryptResult where
  outputBytes : List Nat
  hashedBytes : List Nat
  digest : Option (List Nat)
  header : Header
  signature : List Nat
  ciphertextBlocks : List (List Nat)
  kdf : KdfCall
  nonceUsed : List Nat
deriving DecidableEq

/-- `encrypt_bytes_stream_mode` of `src/encrypt/crypto.rs` lines 166-238:
build the `StreamMode` header type, initialise the streaming cipher (salt,
nonce, key, header, signature), write header + signature when `bench` says
so and feed them to the hasher when `hash` says so, then run the read loop,
writing and hashing each ciphertext block as produced.  `inputChunks` is the
sequence of `input.read` results. -/
def encrypt_bytes_stream_mode (inputChunks : List (List Nat))
    (raw_key : List Nat) (bench : BenchMode) (hash : HashMode)
    (algorithm : Algorithm) (e : Nat → Nat) :
    Except String StreamEncryptResult := do
  let header_type : HeaderType := ⟨VERSION, .streamMode, algorithm⟩
  let (st, header, signature, kdf) ←
    init_encryption_stream raw_key header_type e
  let blocks := encryptLoop st inputChunks
  let outputBytes :=
    if bench = .writeToFilesystem then
      write_to_file header signature ++ blocks.flatten
    else []
  let hashedBytes :=
    if hash = .calculateHash then
      headerHashBytes header signature ++ blocks.flatten
    else []
  let digest :=
    if hash = .calculateHash then some (blake3Sum hashedBytes) else none
  .ok ⟨outputBytes, hashedBytes, digest, header, signature, blocks, kdf,
    st.baseNonce⟩

/-- The container bytes an encryption with writing enabled puts on disk:
dispatches to the memory or stream pipeline (stream input read from a
well-behaved file of contents `p`). -/
def encryptContainer (alg : Algorithm) (mode : CipherMode)
    (raw_key : List Nat) (e : Nat → Nat) (p : List Nat) : List Nat :=
  match mode with
  | .memoryMode =>
    match encrypt_bytes_memory_mode p raw_key .writeToFilesystem .noHash
        alg e with
    | .ok r => r.outputBytes
    | .error _ => []
  | .streamMode =>
    match encrypt_bytes_stream_mode (fileChunks p) raw_key
        .writeToFilesystem .noHash alg e with
    | .ok r => r.outputBytes
    | .error _ => []

/-- Decode of a two-byte little-endian field. -/
def le2inv (l : List Nat) : Nat := l.getD 0 0 + 256 * l.getD 1 0

/-- Modelled from the spec: decode of the algorithm ordinal, refusing
unknown ordinals. -/
def parseAlgorithm (n : Nat) : Except String Algorithm :=
  match n with
  | 1 => .ok .aes256Gcm
  | 2 => .ok .xchacha20Poly1305
  | 3 => .ok .deoxysII256
  | _ => .error "unknown algorithm ordinal"

/-- Modelled from the spec: decode of the cipher-mode ordinal, refusing
unknown ordinals. -/
def parseCipherMode (n : Nat) : Except String CipherMode :=
  match n with
  | 1 => .ok .memoryMode
  | 2 => .ok .streamMode
  | _ => .error "unknown cipher mode ordinal"

/-- Modelled from the spec: the header-codec parser (missing from `src/`),
inverse of `serializeHeader` on the fixed §4.5 layout. -/
def parseHeader (b : List Nat) : Except String Header := do
  let version := le2inv (b.take 2)
  let alg ← parseAlgorithm (le2inv ((b.drop 2).take 2))
  let mode ← parseCipherMode (le2inv ((b.drop 4).take 2))
  let salt := (b.drop 8).take 16
  let nonce := (b.drop 24).take (nonceLen alg)
  .ok ⟨salt, nonce, ⟨version, mode, alg⟩⟩

/-- The sequence of chunks the stream decryption loop consumes: fixed
`BLOCK_SIZE + 16` reads, the terminal chunk being whatever remains
(spec §4.7). -/
def ctChunks (ct : List Nat) : List (List Nat) :=
  if h : BLOCK_SIZE + 16 ≤ ct.length then
    ct.take (BLOCK_SIZE + 16) :: ctChunks (ct.drop (BLOCK_SIZE + 16))
  else
    [ct]
termination_by ct.length
decreasing_by simp [List.length_drop, BLOCK_SIZE] at *; omega

/-- Modelled from the spec: the stream decryption loop of §4.7 —
`decrypt_next` on every chunk before the terminal one, `decrypt_last` on the
terminal chunk, any tag failure aborting. -/
def decryptStreamLoop (st : StreamState) :
    List (List Nat) → Except String (List Nat)
  | [] => .error "no ciphertext blocks"
  | [c] => aeadOpen st.algorithm st.key
      (streamNonce st.baseNonce st.counter true) c
  | c :: c2 :: rest => do
    let pt ← aeadOpen st.algorithm st.key
      (streamNonce st.baseNonce st.counter false) c
    let tail ← decryptStreamLoop (nextState st) (c2 :: rest)
    .ok (pt ++ tail)

/-- Modelled from the spec: the decryption pipelines (missing from `src/`),
per §4.6-§4.7 — read the fixed-length header, read the signature, re-derive
the key from the raw key and the header's salt, verify the signature, then
AEAD-decrypt one-shot (memory mode) or block-by-block (stream mode) as the
header's cipher mode dictates. -/
def decrypt_container (container raw_key : List Nat) :
    Except String (List Nat) := do
  let headerBytes := container.take 64
  let rest := container.drop 64
  let signature := rest.take 32
  let ct := rest.drop 32
  let header ← parseHeader headerBytes
  let kdf ← argon2_hash raw_key header.salt header.header_type.header_version
  if sign header kdf.key = signature then
    match header.header_type.cipher_mode with
    | .memoryMode =>
      aeadOpen header.header_type.algorithm kdf.key header.nonce ct
    | .streamMode =>
      decryptStreamLoop ⟨header.header_type.algorithm, kdf.key,
        header.nonce, 0⟩ (ctChunks ct)
  else
    .error "header signature mismatch"

/-- Byte value of a base64 digit (standard alphabet `A-Z a-z 0-9 + /`),
modelling the external `base64` crate used by `src/encrypt.rs`. -/
def base64Char (n : Nat) : Nat :=
  if n < 26 then 65 + n
  else if n < 52 then 97 + (n - 26)
  else if n < 62 then 48 + (n - 52)
  else if n = 62 then 43
  else 47

/-- Standard base64 encoding with `=` padding (byte 61), modelling
`base64::encode` as called by `src/encrypt.rs`. -/
def base64Encode : List Nat → List Nat
  | [] => []
  | [a] => [base64Char (a / 4), base64Char (a % 4 * 16), 61, 61]
  | [a, b] => [base64Char (a / 4), base64Char (a % 4 * 16 + b / 16),
      base64Char (b % 16 * 4), 61]
  | a :: b :: c :: rest =>
    [base64Char (a / 4), base64Char (a % 4 * 16 + b / 16),
      base64Char (b % 16 * 4 + c / 64), base64Char (c % 64)] ++
    base64Encode rest

/-- The bytes of a string literal. -/
def strBytes (s : String) : List Nat := s.toList.map Char.toNat

/-- The bytes `serde_json::to_writer` emits for
`DexiosFile { salt, nonce, data }` (`src/encrypt.rs` lines 53-56): a compact
JSON object with the three string fields in declaration order; base64 output
never needs JSON escaping. -/
def dexiosFileJson (salt nonce data : List Nat) : List Nat :=
  strBytes "\x7b\"salt\":\"" ++ salt ++
  strBytes "\",\"nonce\":\"" ++ nonce ++
  strBytes "\",\"data\":\"" ++ data ++
  strBytes "\"\x7d"

/-- Observable result of the legacy `encrypt_file`: the raw key bytes it
used, the salt, the KDF call, the nonce, the AEAD ciphertext, and the bytes
written to the output file. -/
structure EncryptFileResult where
  rawKey : List Nat
  salt : List Nat
  kdf : KdfCall
  nonce : List Nat
  ciphertext : List Nat
  outputBytes : List Nat
deriving DecidableEq

/-- The legacy `encrypt_file` of `src/encrypt.rs` lines 9-59.  `fs` maps a
path to that file's contents; `password` is what the stdin prompt loop
returns; `e` and `e2` are the entropy streams of `StdRng::from_entropy()`
and `rand::thread_rng()`.  Faithful to the source: when a keyfile is named,
line 30 opens `input` (not `keyfile`); the salt is 256 random bytes; the key
is PBKDF2-HMAC-SHA512 over (raw key, salt) with 122880 iterations; the
cipher is AES-256-GCM with a 12-byte nonce; the output is the JSON
`DexiosFile` with base64 salt, nonce and ciphertext. -/
def encrypt_file (fs : String → List Nat) (input output keyfile : String)
    (password : List Nat) (e e2 : Nat → Nat) : EncryptFileResult :=
  let use_keyfile := !keyfile.isEmpty
  let data := fs input
  let raw_key := if !use_keyfile then password else fs input
  let salt := (List.range 256).map fun i => e i % 256
  let kdf := pbkdf2_derive raw_key salt 122880
  let nonce_bytes := (List.range 12).map fun i => e2 i % 256
  let encrypted_bytes := aeadSeal .aes256Gcm kdf.key nonce_bytes data
  let outputBytes := dexiosFileJson (base64Encode salt)
    (base64Encode nonce_bytes) (base64Encode encrypted_bytes)
  ⟨raw_key, salt, kdf, nonce_bytes, encrypted_bytes, outputBytes⟩

/-- Model of Rust `str::parse::<usize>()`: an optional leading `+`, then one
or more decimal digits, rejecting values past the 64-bit range. -/
def parseUsize (s : String) : Option Nat :=
  let chars := match s.toList with
    | '+' :: rest => rest
    | l => l
  if chars ≠ [] ∧ chars.all Char.isDigit then
    let v := chars.foldl (fun acc c => acc * 10 + (c.toNat - 48)) 0
    if v < 2 ^ 64 then some v else none
  else
    none

/-- `encrypt_additional_params` of `src/global/parameters.rs` lines 77-97,
with the `--aead` argument value as an `Option String`: parse the provided
ordinal (defaulting to 1 when absent), error outside `1..=ALGORITHMS.len()`,
otherwise return `ALGORITHMS[provided_aead - 1]`. -/
def encrypt_additional_params (aead : Option String) :
    Except String Algorithm := do
  let provided_aead : Nat ←
    match aead with
    | some s =>
      match parseUsize s with
      | some n => Except.ok n
      | none => Except.error ("Invalid AEAD selected! Use \"dexios list aead\" to see all possible values.")
    | none => Except.ok 1
  if h : provided_aead < 1 ∨ ALGORITHMS.length < provided_aead then
    .error "Invalid AEAD selected! Use \"dexios list aead\" to see all possible values."
  else
    .ok (ALGORITHMS.get ⟨provided_aead - 1, by omega⟩)

/-- Fixture filesystem for the concrete evaluations: distinct contents at the
plaintext path and the keyfile path. -/
def fsEx : String → List Nat := fun p =>
  if p = "plain.txt" then [10, 11] else if p = "key.bin" then [20] else []

/-- Fixture entropy stream. -/
def eEx : Nat → Nat := fun i => i

/-- Fixture password bytes. -/
def pwEx : List Nat := [1, 2, 3]

/-- Fixture streaming-cipher state for the read-loop evaluation. -/
def exStream : StreamState := ⟨.aes256Gcm, List.replicate 32 7, List.replicate 8 1, 0⟩

/-! ### Helper lemmas -/

theorem argon2KeyBytes_length (raw salt : List Nat) (p : Nat × Nat × Nat) :
    (argon2KeyBytes raw salt p).length = 32 := by
  simp [argon2KeyBytes]

theorem gen_salt_length (e : Nat → Nat) : (gen_salt e).length = 16 := by
  simp [gen_salt]

theorem gen_nonce_length (e : Nat → Nat) (n : Nat) :
    (gen_nonce e n).length = n := by
  simp [gen_nonce]

theorem keyedTag32_length (b k : List Nat) : (keyedTag32 b k).length = 32 := by
  simp [keyedTag32]

theorem tagBytes_length (alg : Algorithm) (k n p : List Nat) :
    (tagBytes alg k n p).length = 16 := by
  simp [tagBytes]

theorem padTo_length (n : Nat) (l : List Nat) : (padTo n l).length = n := by
  simp [padTo]
  omega

theorem serializeHeader_length (h : Header) :
    (serializeHeader h).length = 64 := by
  obtain ⟨salt, nonce, version, mode, alg⟩ := h
  simp [serializeHeader, le2, padTo_length]

theorem aead_open_seal (alg : Algorithm) (key nonce pt : List Nat) :
    aeadOpen alg key nonce (aeadSeal alg key nonce pt) = .ok pt := by
  have ht : (tagBytes alg key nonce pt).length = 16 := tagBytes_length ..
  have hsub : pt.length + 16 - 16 = pt.length := by omega
  simp only [aeadOpen, aeadSeal, List.length_append, ht, hsub,
    List.take_left, List.drop_left]
  simp

/-- Normal form of the memory-mode pipeline: it always succeeds, with the
record of observables written out explicitly. -/
theorem mem_mode_eq (data raw_key : List Nat) (bench : BenchMode)
    (hash : HashMode) (alg : Algorithm) (e : Nat → Nat) :
    encrypt_bytes_memory_mode data raw_key bench hash alg e =
      let salt := gen_salt e
      let nonce := gen_nonce e (nonceLen alg)
      let header : Header := ⟨salt, nonce, ⟨VERSION, .memoryMode, alg⟩⟩
      let kdf : KdfCall := ⟨.argon2id, argon2KeyBytes raw_key salt (4096, 3, 1)⟩
      let signature := sign header kdf.key
      let ct := aeadSeal alg kdf.key nonce data
      let hashed := if hash = .calculateHash then
        headerHashBytes header signature ++ ct else []
      Except.ok ⟨(if bench = .writeToFilesystem then
          write_to_file header signature ++ ct else []),
        hashed,
        (if hash = .calculateHash then some (blake3Sum hashed) else none),
        header, signature, ct, kdf, nonce⟩ := rfl

/-- Normal form of the stream-mode pipeline: it always succeeds, with the
record of observables written out explicitly. -/
theorem stream_mode_eq (chunks : List (List Nat)) (raw_key : List Nat)
    (bench : BenchMode) (hash : HashMode) (alg : Algorithm) (e : Nat → Nat) :
    encrypt_bytes_stream_mode chunks raw_key bench hash alg e =
      let salt := gen_salt e
      let nonce := gen_nonce e (nonceLen alg)
      let header : Header := ⟨salt, nonce, ⟨VERSION, .streamMode, alg⟩⟩
      let kdf : KdfCall := ⟨.argon2id, argon2KeyBytes raw_key salt (4096, 3, 1)⟩
      let signature := sign header kdf.key
      let blocks := encryptLoop ⟨alg, kdf.key, nonce, 0⟩ chunks
      let hashed := if hash = .calculateHash then
        headerHashBytes header signature ++ blocks.flatten else []
      Except.ok ⟨(if bench = .writeToFilesystem then
          write_to_file header signature ++ blocks.flatten else []),
        hashed,
        (if hash = .calculateHash then some (blake3Sum hashed) else none),
        header, signature, blocks, kdf, nonce⟩ := rfl

/-- Parsing inverts serialization on every header the pipelines build. -/
theorem parse_ser_pipeline (alg : Algorithm) (mode : CipherMode)
    (e : Nat → Nat) :
    parseHeader (serializeHeader
        ⟨gen_salt e, gen_nonce e (nonceLen alg), ⟨VERSION, mode, alg⟩⟩) =
      .ok ⟨gen_salt e, gen_nonce e (nonceLen alg), ⟨VERSION, mode, alg⟩⟩ := by
  cases alg <;> cases mode <;> rfl

theorem sign_length (h : Header) (k : List Nat) : (sign h k).length = 32 :=
  keyedTag32_length _ _

theorem exc_bind_ok {α β : Type} (a : α) (f : α → Except String β) :
    Bind.bind (Except.ok a) f = f a := rfl

theorem fileChunks_eq (p : List Nat) :
    fileChunks p = if BLOCK_SIZE ≤ p.length then
      p.take BLOCK_SIZE :: fileChunks (p.drop BLOCK_SIZE) else [p] := by
  rw [fileChunks]
  simp [dite_eq_ite]

theorem ctChunks_eq (ct : List Nat) :
    ctChunks ct = if BLOCK_SIZE + 16 ≤ ct.length then
      ct.take (BLOCK_SIZE + 16) :: ctChunks (ct.drop (BLOCK_SIZE + 16))
    else [ct] := by
  rw [ctChunks]
  simp [dite_eq_ite]

theorem ctChunks_ne_nil (x : List Nat) : ctChunks x ≠ [] := by
  rw [ctChunks_eq]
  split <;> simp

/-- Stream round trip, terminal case: a file shorter than `BLOCK_SIZE`
encrypts to a single terminal block that decrypts back. -/
theorem stream_rt_short (alg : Algorithm) (key base : List Nat) (cnt : Nat)
    (p : List Nat) (h : p.length < BLOCK_SIZE) :
    decryptStreamLoop ⟨alg, key, base, cnt⟩
      (ctChunks (encryptLoop ⟨alg, key, base, cnt⟩ (fileChunks p)).flatten) =
      .ok p := by
  have hfc : fileChunks p = [p] := by rw [fileChunks_eq, if_neg (by omega)]
  rw [hfc]
  have hloop : encryptLoop ⟨alg, key, base, cnt⟩ [p] =
      [encrypt_last ⟨alg, key, base, cnt⟩ p] := by
    simp only [encryptLoop]
    rw [if_neg (by omega)]
  rw [hloop]
  have hlen : (encrypt_last ⟨alg, key, base, cnt⟩ p).length = p.length + 16 := by
    simp [encrypt_last, aeadSeal, tagBytes_length]
  have hcc : ctChunks ([encrypt_last ⟨alg, key, base, cnt⟩ p]).flatten =
      [encrypt_last ⟨alg, key, base, cnt⟩ p] := by
    have hf : ([encrypt_last ⟨alg, key, base, cnt⟩ p]).flatten =
        encrypt_last ⟨alg, key, base, cnt⟩ p := by simp
    rw [hf, ctChunks_eq, if_neg (by omega)]
  rw [hcc]
  exact aead_open_seal alg key (streamNonce base cnt true) p

/-- Stream round trip: decrypting the concatenated ciphertext blocks the
encryption loop produces for a well-behaved file recovers the plaintext,
for every starting counter. -/
theorem stream_rt (alg : Algorithm) (key base : List Nat) :
    ∀ (N : Nat) (p : List Nat) (cnt : Nat), p.length ≤ N →
      decryptStreamLoop ⟨alg, key, base, cnt⟩
        (ctChunks (encryptLoop ⟨alg, key, base, cnt⟩ (fileChunks p)).flatten) =
        .ok p := by
  intro N
  induction N with
  | zero =>
    intro p cnt hp
    have hB : 0 < BLOCK_SIZE := by decide
    exact stream_rt_short alg key base cnt p (by omega)
  | succ N ih =>
    intro p cnt hp
    by_cases hB : BLOCK_SIZE ≤ p.length
    · have hBpos : 0 < BLOCK_SIZE := by decide
      have hfc : fileChunks p =
          p.take BLOCK_SIZE :: fileChunks (p.drop BLOCK_SIZE) := by
        rw [fileChunks_eq, if_pos hB]
      rw [hfc]
      have htake : (p.take BLOCK_SIZE).length = BLOCK_SIZE := by
        simp [List.length_take]
        omega
      have hloop : encryptLoop ⟨alg, key, base, cnt⟩
          (p.take BLOCK_SIZE :: fileChunks (p.drop BLOCK_SIZE)) =
          encrypt_next ⟨alg, key, base, cnt⟩ (p.take BLOCK_SIZE) ::
            encryptLoop ⟨alg, key, base, cnt + 1⟩
              (fileChunks (p.drop BLOCK_SIZE)) := by
        simp only [encryptLoop]
        rw [if_pos htake]
        rfl
      rw [hloop]
      have hb1len : (encrypt_next ⟨alg, key, base, cnt⟩
          (p.take BLOCK_SIZE)).length = BLOCK_SIZE + 16 := by
        simp [encrypt_next, aeadSeal, tagBytes_length, htake]
      have hflat : (encrypt_next ⟨alg, key, base, cnt⟩ (p.take BLOCK_SIZE) ::
          encryptLoop ⟨alg, key, base, cnt + 1⟩
            (fileChunks (p.drop BLOCK_SIZE))).flatten =
          encrypt_next ⟨alg, key, base, cnt⟩ (p.take BLOCK_SIZE) ++
          (encryptLoop ⟨alg, key, base, cnt + 1⟩
            (fileChunks (p.drop BLOCK_SIZE))).flatten := by
        simp
      rw [hflat]
      have hcc : ctChunks (encrypt_next ⟨alg, key, base, cnt⟩
            (p.take BLOCK_SIZE) ++
          (encryptLoop ⟨alg, key, base, cnt + 1⟩
            (fileChunks (p.drop BLOCK_SIZE))).flatten) =
          encrypt_next ⟨alg, key, base, cnt⟩ (p.take BLOCK_SIZE) ::
          ctChunks ((encryptLoop ⟨alg, key, base, cnt + 1⟩
            (fileChunks (p.drop BLOCK_SIZE))).flatten) := by
        rw [ctChunks_eq, if_pos (by rw [List.length_append, hb1len]; omega)]
        rw [List.take_left' hb1len, List.drop_left' hb1len]
      rw [hcc]
      obtain ⟨c2, rest2, hcr⟩ := List.exists_cons_of_ne_nil
        (ctChunks_ne_nil ((encryptLoop ⟨alg, key, base, cnt + 1⟩
          (fileChunks (p.drop BLOCK_SIZE))).flatten))
      rw [hcr]
      simp only [decryptStreamLoop, nextState]
      have hopen : aeadOpen alg key (streamNonce base cnt false)
          (encrypt_next ⟨alg, key, base, cnt⟩ (p.take BLOCK_SIZE)) =
          .ok (p.take BLOCK_SIZE) :=
        aead_open_seal alg key (streamNonce base cnt false) (p.take BLOCK_SIZE)
      rw [hopen, exc_bind_ok, ← hcr,
        ih (p.drop BLOCK_SIZE) (cnt + 1) (by simp [List.length_drop]; omega),
        exc_bind_ok, List.take_append_drop]
    · exact stream_rt_short alg key base cnt p (by omega)

/-- Decrypting a well-formed container whose header round-trips and whose
key re-derives reduces to the mode dispatch on the ciphertext. -/
theorem decrypt_wellformed (hdr : Header) (raw ct key : List Nat)
    (hparse : parseHeader (serializeHeader hdr) = .ok hdr)
    (hkdf : argon2_hash raw hdr.salt hdr.header_type.header_version =
      .ok ⟨.argon2id, key⟩) :
    decrypt_container ((serializeHeader hdr ++ sign hdr key) ++ ct) raw =
      (match hdr.header_type.cipher_mode with
        | .memoryMode => aeadOpen hdr.header_type.algorithm key hdr.nonce ct
        | .streamMode => decryptStreamLoop
            ⟨hdr.header_type.algorithm, key, hdr.nonce, 0⟩ (ctChunks ct)) := by
  simp only [decrypt_container]
  rw [List.append_assoc]
  rw [List.take_left' (serializeHeader_length hdr),
    List.drop_left' (serializeHeader_length hdr)]
  rw [List.take_left' (sign_length hdr key),
    List.drop_left' (sign_length hdr key)]
  rw [hparse]
  simp only [exc_bind_ok]
  rw [hkdf]
  simp only [exc_bind_ok]
  rw [if_pos trivial]

/-! ### Claims -/

/-- Claim C1: for every algorithm in {AES-256-GCM, XChaCha20-Poly1305,
Deoxys-II-256}, every cipher mode in {MemoryMode, StreamMode}, every key,
and every plaintext of length at most 8 times BLOCK_SIZE, decrypting the
container produced by encrypting the plaintext with that key, algorithm and
mode, using the same key, yields exactly the plaintext. -/
theorem C1_round_trip (alg : Algorithm) (mode : CipherMode)
    (raw_key : List Nat) (e : Nat → Nat) (p : List Nat)
    (hp : p.length ≤ 8 * BLOCK_SIZE) :
    decrypt_container (encryptContainer alg mode raw_key e p) raw_key =
      .ok p := by
  cases mode
  case memoryMode =>
    simp only [encryptContainer, mem_mode_eq, write_to_file, if_true]
    rw [decrypt_wellformed
      ⟨gen_salt e, gen_nonce e (nonceLen alg), ⟨VERSION, .memoryMode, alg⟩⟩
      raw_key _ (argon2KeyBytes raw_key (gen_salt e) (4096, 3, 1))
      (parse_ser_pipeline alg .memoryMode e) rfl]
    exact aead_open_seal alg _ _ p
  case streamMode =>
    simp only [encryptContainer, stream_mode_eq, write_to_file, if_true]
    rw [decrypt_wellformed
      ⟨gen_salt e, gen_nonce e (nonceLen alg), ⟨VERSION, .streamMode, alg⟩⟩
      raw_key _ (argon2KeyBytes raw_key (gen_salt e) (4096, 3, 1))
      (parse_ser_pipeline alg .streamMode e) rfl]
    exact stream_rt alg _ _ p.length p 0 (le_refl _)

/-- Claim C1 witness: the round trip evaluated at a concrete stream-mode
encryption of the three bytes [5, 6, 7] under AES-256-GCM. -/
theorem C1_round_trip_witness :
    decrypt_container
      (encryptContainer .aes256Gcm .streamMode [1, 2] (fun i => i) [5, 6, 7])
      [1, 2] = .ok [5, 6, 7] ∧
    ([5, 6, 7] : List Nat).length ≤ 8 * BLOCK_SIZE :=
  ⟨C1_round_trip .aes256Gcm .streamMode [1, 2] (fun i => i) [5, 6, 7]
    (by decide), by decide⟩

/-- Claim C2, evaluated at the failing input: the read loop of
`encrypt_bytes_stream_mode` treats any read shorter than `BLOCK_SIZE` as
end of input.  On a read schedule whose first `read` returns only 3 bytes
while a further read with more data is still pending, the loop calls
`encrypt_last` on the short block and terminates, never encrypting the
pending bytes — although EOF was not reached. -/
theorem C2_short_read_treated_as_end_of_input :
    encryptLoop exStream [[1, 2, 3], [4, 5, 6]] =
      [encrypt_last exStream [1, 2, 3]] := by
  rfl

/-- Claim C3, evaluated at the failing input: when a keyfile is supplied,
`encrypt_file` (line 30 of `src/encrypt.rs`) reads the raw key bytes from
the input path, not from the keyfile path — here the two paths hold
different contents and the key used is the input file's contents. -/
theorem C3_keyfile_opens_input_path :
    (encrypt_file fsEx "plain.txt" "out.enc" "key.bin" pwEx eEx eEx).rawKey =
      fsEx "plain.txt" ∧
    fsEx "plain.txt" ≠ fsEx "key.bin" :=
  ⟨rfl, by decide⟩

/-- Claim C4 (amended): in the memory- and stream-mode pipelines the cipher
key is derived from the raw key and the salt by Argon2id with parameters
selected by the header version, the derived key is exactly 32 bytes, and
that key is the one the cipher is constructed with. -/
theorem C4_engine_kdf_is_argon2id :
    (∀ data raw_key bench hash alg e, ∃ r,
      encrypt_bytes_memory_mode data raw_key bench hash alg e = .ok r ∧
      r.kdf.primitive = .argon2id ∧
      r.kdf.key.length = 32 ∧
      argon2_hash raw_key (gen_salt e) VERSION = .ok r.kdf ∧
      r.ciphertext = aeadSeal alg r.kdf.key r.nonceUsed data) ∧
    (∀ chunks raw_key bench hash alg e, ∃ r,
      encrypt_bytes_stream_mode chunks raw_key bench hash alg e = .ok r ∧
      r.kdf.primitive = .argon2id ∧
      r.kdf.key.length = 32 ∧
      argon2_hash raw_key (gen_salt e) VERSION = .ok r.kdf ∧
      r.ciphertextBlocks = encryptLoop ⟨alg, r.kdf.key, r.nonceUsed, 0⟩ chunks) := by
  constructor
  · intro data raw_key bench hash alg e
    rw [mem_mode_eq]
    exact ⟨_, rfl, rfl, argon2KeyBytes_length .., rfl, rfl⟩
  · intro chunks raw_key bench hash alg e
    rw [stream_mode_eq]
    exact ⟨_, rfl, rfl, argon2KeyBytes_length .., rfl, rfl⟩

/-- Claim C4 counterexample: the legacy `encrypt_file` pipeline derives its
cipher key with PBKDF2-HMAC-SHA512, not Argon2id, so "the KDF is never a
different primitive" fails on this concrete encryption call. -/
theorem C4_cex_encrypt_file_kdf_not_argon2id :
    (encrypt_file fsEx "plain.txt" "out.enc" "key.bin" pwEx eEx eEx).kdf.primitive ≠
      KdfPrimitive.argon2id := by
  decide

/-- Claim C5 (amended): in the memory- and stream-mode pipelines the salt
passed to the KDF and stored in the header is the fixed 16-byte random
buffer produced by the salt generator. -/
theorem C5_engine_salt_16_random :
    (∀ data raw_key bench hash alg e, ∃ r,
      encrypt_bytes_memory_mode data raw_key bench hash alg e = .ok r ∧
      r.header.salt = gen_salt e ∧
      (gen_salt e).length = 16 ∧
      argon2_hash raw_key r.header.salt VERSION = .ok r.kdf) ∧
    (∀ chunks raw_key bench hash alg e, ∃ r,
      encrypt_bytes_stream_mode chunks raw_key bench hash alg e = .ok r ∧
      r.header.salt = gen_salt e ∧
      (gen_salt e).length = 16 ∧
      argon2_hash raw_key r.header.salt VERSION = .ok r.kdf) := by
  constructor
  · intro data raw_key bench hash alg e
    rw [mem_mode_eq]
    exact ⟨_, rfl, rfl, gen_salt_length e, rfl⟩
  · intro chunks raw_key bench hash alg e
    rw [stream_mode_eq]
    exact ⟨_, rfl, rfl, gen_salt_length e, rfl⟩

/-- Claim C5 counterexample: the salt of the legacy `encrypt_file` pipeline
is 256 bytes, not 16, on this concrete encryption call. -/
theorem C5_cex_encrypt_file_salt_length :
    (encrypt_file fsEx "plain.txt" "out.enc" "key.bin" pwEx eEx eEx).salt.length =
      256 ∧
    (encrypt_file fsEx "plain.txt" "out.enc" "key.bin" pwEx eEx eEx).salt.length ≠
      16 := by
  constructor <;> simp [encrypt_file]

/-- Claim C6 (amended): in the memory- and stream-mode pipelines with
writing enabled, the bytes emitted to the output sink are exactly the
serialized header, then the header signature, then the ciphertext
(ciphertext blocks concatenated in encryption order for stream mode),
contiguously in that order. -/
theorem C6_container_order :
    (∀ data raw_key hash alg e, ∃ r,
      encrypt_bytes_memory_mode data raw_key .writeToFilesystem hash alg e =
        .ok r ∧
      r.outputBytes = serializeHeader r.header ++ r.signature ++ r.ciphertext) ∧
    (∀ chunks raw_key hash alg e, ∃ r,
      encrypt_bytes_stream_mode chunks raw_key .writeToFilesystem hash alg e =
        .ok r ∧
      r.outputBytes = serializeHeader r.header ++ r.signature ++
        r.ciphertextBlocks.flatten) := by
  constructor
  · intro data raw_key hash alg e
    rw [mem_mode_eq]
    refine ⟨_, rfl, ?_⟩
    simp [write_to_file, List.append_assoc]
  · intro chunks raw_key hash alg e
    rw [stream_mode_eq]
    refine ⟨_, rfl, ?_⟩
    simp [write_to_file, List.append_assoc]

/-- Claim C6 counterexample: the bytes the legacy `encrypt_file` pipeline
writes (a JSON document with base64 fields) are not of the form
serialized-header then 32-byte signature then ciphertext for any header:
the lengths cannot match on this concrete encryption call. -/
theorem C6_cex_encrypt_file_not_header_container :
    ¬ ∃ (h : Header) (s : List Nat), s.length = 32 ∧
      (encrypt_file fsEx "plain.txt" "out.enc" "" pwEx eEx eEx).outputBytes =
        serializeHeader h ++ s ++
          (encrypt_file fsEx "plain.txt" "out.enc" "" pwEx eEx eEx).ciphertext := by
  rintro ⟨h, s, hs, he⟩
  have hlen := congrArg List.length he
  rw [List.length_append, List.length_append, serializeHeader_length h, hs]
    at hlen
  exact absurd hlen (by set_option maxRecDepth 4000 in decide)

/-- Claim C7: the generated nonce has the per-algorithm fixed size —
12 bytes for AES-256-GCM, 24 for XChaCha20-Poly1305, 15 for Deoxys-II-256 —
and the nonce stored in the header is the nonce the cipher actually uses,
in both engine pipelines; the legacy `encrypt_file` also uses a 12-byte
AES-256-GCM nonce and encrypts with exactly that nonce. -/
theorem C7_nonce_sizes_and_header :
    (∀ data raw_key bench hash alg e, ∃ r,
      encrypt_bytes_memory_mode data raw_key bench hash alg e = .ok r ∧
      r.header.nonce = r.nonceUsed ∧
      r.nonceUsed.length = nonceLen alg ∧
      r.ciphertext = aeadSeal alg r.kdf.key r.nonceUsed data) ∧
    (∀ chunks raw_key bench hash alg e, ∃ r,
      encrypt_bytes_stream_mode chunks raw_key bench hash alg e = .ok r ∧
      r.header.nonce = r.nonceUsed ∧
      r.nonceUsed.length = nonceLen alg ∧
      r.ciphertextBlocks = encryptLoop ⟨alg, r.kdf.key, r.nonceUsed, 0⟩ chunks) ∧
    nonceLen .aes256Gcm = 12 ∧
    nonceLen .xchacha20Poly1305 = 24 ∧
    nonceLen .deoxysII256 = 15 ∧
    (∀ fs input outp keyfile pw e e2,
      (encrypt_file fs input outp keyfile pw e e2).nonce.length = 12 ∧
      (encrypt_file fs input outp keyfile pw e e2).ciphertext =
        aeadSeal .aes256Gcm
          (encrypt_file fs input outp keyfile pw e e2).kdf.key
          (encrypt_file fs input outp keyfile pw e e2).nonce (fs input)) := by
  refine ⟨?_, ?_, rfl, rfl, rfl, ?_⟩
  · intro data raw_key bench hash alg e
    rw [mem_mode_eq]
    exact ⟨_, rfl, rfl, gen_nonce_length e (nonceLen alg), rfl⟩
  · intro chunks raw_key bench hash alg e
    rw [stream_mode_eq]
    exact ⟨_, rfl, rfl, gen_nonce_length e (nonceLen alg), rfl⟩
  · intro fs input outp keyfile pw e e2
    exact ⟨by simp [encrypt_file], rfl⟩

/-- Claim C8: with the calculate-hash flag enabled, the bytes folded into
the BLAKE3 hasher are exactly the on-disk byte sequence (header bytes,
signature, ciphertext, in that order) and the reported digest is the BLAKE3
hash of those bytes — for every value of the write flag, so the digest is
computed and surfaced even when writing is disabled. -/
theorem C8_hash_observer :
    (∀ data raw_key bench alg e, ∃ r,
      encrypt_bytes_memory_mode data raw_key bench .calculateHash alg e =
        .ok r ∧
      r.hashedBytes = serializeHeader r.header ++ r.signature ++
        r.ciphertext ∧
      r.digest = some (blake3Sum r.hashedBytes)) ∧
    (∀ chunks raw_key bench alg e, ∃ r,
      encrypt_bytes_stream_mode chunks raw_key bench .calculateHash alg e =
        .ok r ∧
      r.hashedBytes = serializeHeader r.header ++ r.signature ++
        r.ciphertextBlocks.flatten ∧
      r.digest = some (blake3Sum r.hashedBytes)) := by
  constructor
  · intro data raw_key bench alg e
    rw [mem_mode_eq]
    refine ⟨_, rfl, ?_, ?_⟩
    · simp [headerHashBytes, List.append_assoc]
    · simp
  · intro chunks raw_key bench alg e
    rw [stream_mode_eq]
    refine ⟨_, rfl, ?_, ?_⟩
    · simp [headerHashBytes, List.append_assoc]
    · simp

/-- Claim C9: with the write-to-filesystem flag disabled, neither pipeline
writes any bytes to the output sink. -/
theorem C9_no_write_when_disabled :
    (∀ data raw_key hash alg e, ∃ r,
      encrypt_bytes_memory_mode data raw_key .benchmarkInMemory hash alg e =
        .ok r ∧
      r.outputBytes = []) ∧
    (∀ chunks raw_key hash alg e, ∃ r,
      encrypt_bytes_stream_mode chunks raw_key .benchmarkInMemory hash alg e =
        .ok r ∧
      r.outputBytes = []) := by
  constructor
  · intro data raw_key hash alg e
    rw [mem_mode_eq]
    exact ⟨_, rfl, by simp⟩
  · intro chunks raw_key hash alg e
    rw [stream_mode_eq]
    exact ⟨_, rfl, by simp⟩

/-- Claim C10: `encrypt_additional_params` errors for every provided aead
ordinal outside `1 ..= ALGORITHMS.len()`, returns the algorithm at position
`n - 1` of `ALGORITHMS` for every ordinal `n` in range, and defaults to
ordinal 1 — the first algorithm — when no aead argument is present. -/
theorem C10_encrypt_additional_params :
    (∀ s n, parseUsize s = some n → n < 1 ∨ ALGORITHMS.length < n →
      encrypt_additional_params (some s) =
        .error "Invalid AEAD selected! Use \"dexios list aead\" to see all possible values.") ∧
    (∀ s n (h1 : 1 ≤ n) (h2 : n ≤ ALGORITHMS.length), parseUsize s = some n →
      encrypt_additional_params (some s) =
        .ok (ALGORITHMS.get ⟨n - 1, by omega⟩)) ∧
    encrypt_additional_params none = .ok (ALGORITHMS.get ⟨0, by decide⟩) := by
  refine ⟨?_, ?_, ?_⟩
  · intro s n hp hr
    simp only [encrypt_additional_params, hp, exc_bind_ok]
    rw [dif_pos hr]
  · intro s n h1 h2 hp
    simp only [encrypt_additional_params, hp, exc_bind_ok]
    rw [dif_neg (by omega)]
  · rfl

/-- Claim C10 witness: the out-of-range ordinal 4 errors, ordinal 2 returns
XChaCha20-Poly1305, and a missing aead argument defaults to AES-256-GCM. -/
theorem C10_encrypt_additional_params_witness :
    encrypt_additional_params (some "4") =
      .error "Invalid AEAD selected! Use \"dexios list aead\" to see all possible values." ∧
    encrypt_additional_params (some "2") = .ok Algorithm.xchacha20Poly1305 ∧
    encrypt_additional_params none = .ok Algorithm.aes256Gcm := by
  obtain ⟨herr, hok, hnone⟩ := C10_encrypt_additional_params
  refine ⟨herr "4" 4 (by decide) (by decide), ?_, ?_⟩
  · rw [hok "2" 2 (by decide) (by decide) (by decide)]
    rfl
  · rw [hnone]
    rfl

end Dexios
